import Mathlib

/-!
Verification development for the `llm_tts` webpage-audio-summarizer repository.

The repository consists of a browser extension (`extension/background.js`,
`extension/popup.js`, `extension/options.js`) talking to a local summarization
server.  The extension sources are embedded here directly; the Python
summarizer server (`summarizer_server/`) is not among the sources, so the
pipeline orchestrator, the prompt builder and the transport (base64) encoder
are modelled from the specification, as marked on each such definition.

JavaScript strings are modelled as Lean `String`s (lists of characters),
byte values as `Nat`s below 256, and fallible operations as `Option`/`Except`.
-/

namespace LlmTts

/-! ## JavaScript string helpers -/

/-- Model of `String.prototype.startsWith` on the underlying character list:
`startsWithChars s pre` is true when `pre` is an initial segment of `s`. -/
def startsWithChars : List Char → List Char → Bool
  | _, [] => true
  | [], _ :: _ => false
  | c :: cs, d :: ds => c == d && startsWithChars cs ds

/-- Model of JavaScript `s.startsWith(pre)`. -/
def jsStartsWith (s pre : String) : Bool :=
  startsWithChars s.data pre.data

/-- Model of JavaScript truthiness of a possibly-absent string value:
`undefined`/`null` and the empty string are falsy, every other string truthy. -/
def jsTruthy : Option String → Bool
  | none => false
  | some s => !(s == "")

theorem startsWithChars_iff (m : List Char) :
    ∀ t : List Char, startsWithChars t m = true ↔ ∃ suf, t = m ++ suf := by
  induction m with
  | nil =>
    intro t
    simp [startsWithChars]
  | cons d ds ih =>
    intro t
    cases t with
    | nil =>
      simp [startsWithChars]
    | cons c cs =>
      simp only [startsWithChars, Bool.and_eq_true, beq_iff_eq, ih cs, List.cons_append,
        List.cons.injEq]
      constructor
      · rintro ⟨rfl, suf, rfl⟩
        exact ⟨suf, rfl, rfl⟩
      · rintro ⟨suf, rfl, rfl⟩
        exact ⟨rfl, suf, rfl⟩

/-! ## Base64 transport encoding

`atob` is a browser built-in consumed by `base64ToArrayBuffer`
(`extension/background.js`) and `decodeAudioData` (`extension/popup.js`);
it is modelled as strict RFC 4648 base64 decoding.  The encoder lives in the
summarizer server, which is not among the sources, and is modelled from the
specification sentence "packages the final audio as a transport-safe
encoding ... base64-encoded for transport". -/

/-- Character for a six-bit group, per the standard base64 alphabet. -/
def sextetToChar (n : Nat) : Char :=
  if n < 26 then Char.ofNat (65 + n)
  else if n < 52 then Char.ofNat (97 + (n - 26))
  else if n < 62 then Char.ofNat (48 + (n - 52))
  else if n = 62 then '+'
  else '/'

/-- Six-bit value of a base64 alphabet character, `none` for any other
character (including the padding character). -/
def charToSextet (c : Char) : Option Nat :=
  let n := c.toNat
  if 65 ≤ n ∧ n ≤ 90 then some (n - 65)
  else if 97 ≤ n ∧ n ≤ 122 then some (n - 97 + 26)
  else if 48 ≤ n ∧ n ≤ 57 then some (n - 48 + 52)
  else if n = 43 then some 62
  else if n = 47 then some 63
  else none

/-- Modelled from the spec: base64 encoding of a byte list to characters,
three bytes per four output characters with `=` padding (the transport
encoding applied by the missing summarizer server before returning
`audio_base64`). -/
def encodeChars : List Nat → List Char
  | [] => []
  | [b0] =>
      [sextetToChar (b0 / 4), sextetToChar (b0 % 4 * 16), '=', '=']
  | [b0, b1] =>
      [sextetToChar (b0 / 4), sextetToChar (b0 % 4 * 16 + b1 / 16),
       sextetToChar (b1 % 16 * 4), '=']
  | b0 :: b1 :: b2 :: rest =>
      sextetToChar (b0 / 4) :: sextetToChar (b0 % 4 * 16 + b1 / 16) ::
      sextetToChar (b1 % 16 * 4 + b2 / 64) :: sextetToChar (b2 % 64) ::
      encodeChars rest

/-- Modelled from the spec: the base64 encoder of the summarizer server,
producing the `audio_base64` transport string from audio bytes. -/
def base64Encode (bytes : List Nat) : String :=
  String.mk (encodeChars bytes)

/-- Byte values recovered from a base64 character list: groups of four
characters yield three bytes, with `=` padding allowed only at the very end.
Returns `none` exactly on malformed input. -/
def atobBytes : List Char → Option (List Nat)
  | [] => some []
  | c0 :: c1 :: c2 :: c3 :: rest =>
      match charToSextet c0, charToSextet c1 with
      | some s0, some s1 =>
        if c2 = '=' then
          if c3 = '=' then
            if rest = [] then some [s0 * 4 + s1 / 16] else none
          else none
        else
          match charToSextet c2 with
          | some s2 =>
            if c3 = '=' then
              if rest = [] then some [s0 * 4 + s1 / 16, s1 % 16 * 16 + s2 / 4] else none
            else
              match charToSextet c3 with
              | some s3 =>
                  (atobBytes rest).map
                    (fun bs => (s0 * 4 + s1 / 16) :: (s1 % 16 * 16 + s2 / 4) ::
                               (s2 % 4 * 64 + s3) :: bs)
              | none => none
          | none => none
      | _, _ => none
  | _ => none

/-- Model of the browser built-in `atob`: decodes a base64 string to a
binary string whose character codes are the decoded byte values; `none`
models the `InvalidCharacterError` it throws on malformed input. -/
def atob (s : String) : Option String :=
  (atobBytes s.data).map (fun bs => String.mk (bs.map Char.ofNat))

/-- Syntactic well-formedness of a base64 character list, mirroring the
cases in which `atobBytes` succeeds. -/
def validB64Chars : List Char → Bool
  | [] => true
  | c0 :: c1 :: c2 :: c3 :: rest =>
      (charToSextet c0).isSome && (charToSextet c1).isSome &&
      (if c2 = '=' then c3 = '=' && rest.isEmpty
       else (charToSextet c2).isSome &&
         (if c3 = '=' then rest.isEmpty
          else (charToSextet c3).isSome && validB64Chars rest))
  | _ => false

/-- Validity of a base64 transport string. -/
def isValidB64 (s : String) : Bool :=
  validB64Chars s.data

/-- Embedding of `base64ToArrayBuffer` (`extension/background.js`) and of the
`atob`-and-`charCodeAt` loop of `decodeAudioData` (`extension/popup.js`):
`atob` the input, then copy `charCodeAt i` of the binary string into a byte
array.  `none` models the re-thrown error on invalid base64. -/
def base64ToArrayBuffer (s : String) : Option (List Nat) :=
  match atob s with
  | none => none
  | some bin => some (bin.data.map Char.toNat)

/-- Notifications emitted by `base64ToArrayBuffer`
(`extension/background.js`): one `chrome.notifications.create` with title
`播放錯誤` before the error is thrown, none on success. -/
def base64Notifications (s : String) : List String :=
  match atob s with
  | none => ["播放錯誤"]
  | some _ => []

theorem sextet_roundtrip : ∀ n < 64, charToSextet (sextetToChar n) = some n := by
  decide

theorem sextet_ne_pad : ∀ n < 64, sextetToChar n ≠ '=' := by
  decide

set_option maxRecDepth 4096 in
theorem char_toNat_ofNat_lt : ∀ b < 256, (Char.ofNat b).toNat = b := by
  decide

theorem atobBytes_encodeChars :
    ∀ (bs : List Nat), (∀ b ∈ bs, b < 256) → atobBytes (encodeChars bs) = some bs
  | [], _ => by simp [encodeChars, atobBytes]
  | [b0], h => by
      have hb0 : b0 < 256 := h b0 (by simp)
      have e0 := sextet_roundtrip (b0 / 4) (by omega)
      have e1 := sextet_roundtrip (b0 % 4 * 16) (by omega)
      simp [encodeChars, atobBytes, e0, e1]
      omega
  | [b0, b1], h => by
      have hb0 : b0 < 256 := h b0 (by simp)
      have hb1 : b1 < 256 := h b1 (by simp)
      have e0 := sextet_roundtrip (b0 / 4) (by omega)
      have e1 := sextet_roundtrip (b0 % 4 * 16 + b1 / 16) (by omega)
      have e2 := sextet_roundtrip (b1 % 16 * 4) (by omega)
      have n2 := sextet_ne_pad (b1 % 16 * 4) (by omega)
      simp [encodeChars, atobBytes, e0, e1, e2, n2]
      omega
  | b0 :: b1 :: b2 :: rest, h => by
      have hb0 : b0 < 256 := h b0 (by simp)
      have hb1 : b1 < 256 := h b1 (by simp)
      have hb2 : b2 < 256 := h b2 (by simp)
      have ih := atobBytes_encodeChars rest (fun b hb => h b (by simp [hb]))
      have e0 := sextet_roundtrip (b0 / 4) (by omega)
      have e1 := sextet_roundtrip (b0 % 4 * 16 + b1 / 16) (by omega)
      have e2 := sextet_roundtrip (b1 % 16 * 4 + b2 / 64) (by omega)
      have e3 := sextet_roundtrip (b2 % 64) (by omega)
      have n2 := sextet_ne_pad (b1 % 16 * 4 + b2 / 64) (by omega)
      have n3 := sextet_ne_pad (b2 % 64) (by omega)
      simp [encodeChars, atobBytes, e0, e1, e2, e3, n2, n3, ih]
      omega

theorem map_toNat_ofNat :
    ∀ (bs : List Nat), (∀ b ∈ bs, b < 256) →
      (bs.map Char.ofNat).map Char.toNat = bs := by
  intro bs h
  induction bs with
  | nil => rfl
  | cons b rest ih =>
    simp only [List.map_cons, List.cons.injEq]
    exact ⟨char_toNat_ofNat_lt b (h b (by simp)),
           ih (fun x hx => h x (by simp [hx]))⟩

theorem atobBytes_isSome : ∀ l : List Char, (atobBytes l).isSome = validB64Chars l
  | [] => by simp [atobBytes, validB64Chars]
  | [_] => by simp [atobBytes, validB64Chars]
  | [_, _] => by simp [atobBytes, validB64Chars]
  | [_, _, _] => by simp [atobBytes, validB64Chars]
  | c0 :: c1 :: c2 :: c3 :: rest => by
      have ih := atobBytes_isSome rest
      cases h0 : charToSextet c0 with
      | none => simp [atobBytes, validB64Chars, h0]
      | some s0 =>
        cases h1 : charToSextet c1 with
        | none => simp [atobBytes, validB64Chars, h0, h1]
        | some s1 =>
          by_cases hc2 : c2 = '='
          · by_cases hc3 : c3 = '='
            · by_cases hr : rest = [] <;>
                simp [atobBytes, validB64Chars, h0, h1, hc2, hc3, hr]
            · simp [atobBytes, validB64Chars, h0, h1, hc2, hc3]
          · cases h2 : charToSextet c2 with
            | none => simp [atobBytes, validB64Chars, h0, h1, hc2, h2]
            | some s2 =>
              by_cases hc3 : c3 = '='
              · by_cases hr : rest = [] <;>
                  simp [atobBytes, validB64Chars, h0, h1, hc2, h2, hc3, hr]
              · cases h3 : charToSextet c3 with
                | none => simp [atobBytes, validB64Chars, h0, h1, hc2, h2, hc3, h3]
                | some s3 =>
                  simp [atobBytes, validB64Chars, h0, h1, hc2, h2, hc3, h3, ih]

/-! ## Pipeline orchestrator and prompt builder

Modelled from the spec: the summarizer server (`summarizer_server/`) is not
among the repository sources, only its extension-side callers are.  The
orchestrator of §4.5 ("sequentially invoke Extractor → Prompt Builder →
Gateway → Synthesizer, propagating the first failure immediately"), the
error taxonomy of §7 and the prompt builder of §4.2 are embedded from the
specification text.  The fallible stages are external collaborators and are
passed in as functions. -/

namespace Pipeline

/-- Error kinds from the spec §7 taxonomy. -/
inductive ErrKind where
  | invalidInput
  | extractionFailure
  | configurationError
  | providerFailure
  | synthesisFailure
  | internalFailure
deriving DecidableEq, Repr

/-- PromptPayload of spec §3. -/
structure PromptPayload where
  system_prompt : String
  user_prompt : String
deriving DecidableEq, Repr

/-- Modelled from the spec: the fixed text-substitution placeholder of the
user-prompt template (§3, "user_prompt always embeds the extracted text via
a fixed template placeholder"); the concrete spelling of the marker is a
modelling choice. -/
def MARKER : String := "{text}"

/-- Replace the first occurrence of `marker` inside `tmpl` by `text`;
`none` when `tmpl` does not contain `marker`. -/
def replaceMarker (marker text : List Char) : List Char → Option (List Char)
  | [] => none
  | c :: cs =>
    if startsWithChars (c :: cs) marker then
      some (text ++ (c :: cs).drop marker.length)
    else
      match replaceMarker marker text cs with
      | none => none
      | some r => some (c :: r)

/-- Modelled from the spec: the Prompt Builder of §4.2 — combines the
configured system prompt and user-prompt template with the extracted text;
fails fast with a configuration error when the template lacks the
text-substitution marker. -/
def buildPromptPayload (sys tmpl txt : String) : Except ErrKind PromptPayload :=
  match replaceMarker MARKER.data txt.data tmpl.data with
  | none => Except.error ErrKind.configurationError
  | some up => Except.ok { system_prompt := sys, user_prompt := String.mk up }

/-- External collaborators of one pipeline run, each fallible, per spec §6. -/
structure Collaborators where
  extract : String → Except ErrKind String
  buildPrompt : String → Except ErrKind PromptPayload
  summarize : PromptPayload → Except ErrKind String
  synthesize : String → Except ErrKind (List Nat)

/-- Modelled from the spec: the Pipeline Orchestrator of §4.5 — rejects
non-http(s) URLs before any stage, then sequentially invokes
extract → prompt → summarize → synthesize, propagating the first failure
(fail-fast, no partial results), and base64-encodes the audio on success. -/
def runPipeline (c : Collaborators) (url : String) :
    Except ErrKind (String × String) :=
  if !(jsStartsWith url "http:") && !(jsStartsWith url "https:") then
    Except.error ErrKind.invalidInput
  else do
    let txt ← c.extract url
    let p ← c.buildPrompt txt
    let s ← c.summarize p
    let audio ← c.synthesize s
    pure (s, base64Encode audio)

/-- The four fallible pipeline stages. -/
inductive Stage where
  | extract
  | prompt
  | summarize
  | synthesize
deriving DecidableEq, BEq, Repr

/-- Modelled from the spec: the stages the orchestrator attempts on one
request, in order, stopping at the first failure (§4.5 state machine; a
rejected URL attempts no stage at all). -/
def stagesAttempted (c : Collaborators) (url : String) : List Stage :=
  if !(jsStartsWith url "http:") && !(jsStartsWith url "https:") then []
  else
    Stage.extract ::
      match c.extract url with
      | Except.error _ => []
      | Except.ok txt =>
        Stage.prompt ::
          match c.buildPrompt txt with
          | Except.error _ => []
          | Except.ok p =>
            Stage.summarize ::
              match c.summarize p with
              | Except.error _ => []
              | Except.ok _ => [Stage.synthesize]

end Pipeline

theorem replaceMarker_some (marker text : List Char) :
    ∀ (t r : List Char), Pipeline.replaceMarker marker text t = some r →
      ∃ pre suf, t = pre ++ marker ++ suf ∧ r = pre ++ text ++ suf := by
  intro t
  induction t with
  | nil => intro r h; simp [Pipeline.replaceMarker] at h
  | cons c cs ih =>
    intro r h
    rw [Pipeline.replaceMarker] at h
    by_cases hs : startsWithChars (c :: cs) marker = true
    · rw [if_pos hs] at h
      obtain ⟨suf, hsuf⟩ := (startsWithChars_iff marker (c :: cs)).mp hs
      refine ⟨[], suf, by simpa using hsuf, ?_⟩
      have hdrop : (c :: cs).drop marker.length = suf := by
        rw [hsuf]
        exact List.drop_left marker suf
      simp only [Option.some.injEq] at h
      simp [← h, hdrop]
    · rw [if_neg hs] at h
      cases hrec : Pipeline.replaceMarker marker text cs with
      | none => rw [hrec] at h; exact absurd h (by simp)
      | some r' =>
        rw [hrec] at h
        simp only [Option.some.injEq] at h
        obtain ⟨pre, suf, hcs, hr'⟩ := ih r' hrec
        exact ⟨c :: pre, suf, by simp [hcs], by simp [← h, hr']⟩

theorem replaceMarker_none (marker text : List Char) (hm : marker ≠ []) :
    ∀ t : List Char, Pipeline.replaceMarker marker text t = none ↔
      ¬ ∃ pre suf, t = pre ++ marker ++ suf := by
  intro t
  induction t with
  | nil =>
    simp only [Pipeline.replaceMarker, true_iff]
    rintro ⟨pre, suf, hps⟩
    have hlen := congrArg List.length hps
    simp only [List.length_nil, List.length_append] at hlen
    exact hm (List.length_eq_zero.mp (by omega))
  | cons c cs ih =>
    rw [Pipeline.replaceMarker]
    by_cases hs : startsWithChars (c :: cs) marker = true
    · rw [if_pos hs]
      obtain ⟨suf, hsuf⟩ := (startsWithChars_iff marker (c :: cs)).mp hs
      constructor
      · intro h; exact absurd h (by simp)
      · intro hno; exact absurd ⟨[], suf, hsuf⟩ hno
    · rw [if_neg hs]
      cases hrec : Pipeline.replaceMarker marker text cs with
      | none =>
        simp only [true_iff]
        rintro ⟨pre, suf, hps⟩
        cases pre with
        | nil =>
          apply hs
          exact (startsWithChars_iff marker (c :: cs)).mpr ⟨suf, by simpa using hps⟩
        | cons p ps =>
          simp only [List.cons_append, List.cons.injEq] at hps
          exact (ih.mp hrec) ⟨ps, suf, hps.2⟩
      | some r' =>
        show some (c :: r') = none ↔ _
        constructor
        · intro h; exact absurd h (by simp)
        · intro hno
          obtain ⟨pre, suf, hcs, _⟩ := replaceMarker_some marker text cs r' hrec
          exact absurd ⟨c :: pre, suf, by simp [hcs]⟩ hno

/-! ## Background service worker (`extension/background.js`) -/

namespace Background

/-- Request body built at the `fetch` call of the `chrome.action.onClicked`
listener: `JSON.stringify({ url: tab.url, summarizer_choice: "gemini" })`. -/
structure RequestBody where
  url : String
  summarizer_choice : String
deriving DecidableEq, Repr

/-- Server response fields the listener inspects after `response.json()`. -/
structure ServerData where
  error : Option String
  audio_base64 : Option String
deriving DecidableEq, Repr

/-- Outcome of the single `fetch` to the summarization server. -/
inductive Reply where
  | httpError (status : Nat) (errMsg : Option String)
  | ok (data : ServerData)
deriving DecidableEq, Repr

/-- Observable effects of the listener. -/
inductive Action where
  | notify (title : String)
  | setBadge (text : String)
  | fetchRequest (body : RequestBody)
  | play
deriving DecidableEq, Repr

/-- Bodies of the fetch requests contained in an action trace. -/
def requestsOf (acts : List Action) : List RequestBody :=
  acts.filterMap fun a =>
    match a with
    | Action.fetchRequest b => some b
    | _ => none

/-- Handling of the server reply inside the `try` block of the
`chrome.action.onClicked` listener: HTTP or server-reported errors throw and
reach the `catch` notification; non-empty `audio_base64` is decoded with
`base64ToArrayBuffer` (whose failure notifies and throws) and played;
empty audio yields the `摘要結果` notification. -/
def handleReply (r : Reply) : List Action :=
  match r with
  | Reply.httpError _ _ => [Action.notify "處理錯誤"]
  | Reply.ok data =>
    if jsTruthy data.error then [Action.notify "處理錯誤"]
    else
      match data.audio_base64 with
      | some a =>
        if !(a == "") then
          match base64ToArrayBuffer a with
          | some _ => [Action.play]
          | none => [Action.notify "播放錯誤", Action.notify "處理錯誤"]
        else [Action.notify "摘要結果"]
      | none => [Action.notify "摘要結果"]

/-- Embedding of the `chrome.action.onClicked` listener: a tab URL that is
absent, empty, or not starting with `http:`/`https:` is rejected with the
`無法摘要` notification and nothing else happens; otherwise the badge is set,
exactly one fetch with body `{ url, summarizer_choice: "gemini" }` is issued,
the reply is handled, and the badge is cleared in the `finally` block. -/
def onClicked (tabUrl : Option String) (reply : Reply) : List Action :=
  match tabUrl with
  | none => [Action.notify "無法摘要"]
  | some u =>
    if u == "" || (!(jsStartsWith u "http:") && !(jsStartsWith u "https:")) then
      [Action.notify "無法摘要"]
    else
      Action.setBadge "..." ::
        Action.fetchRequest { url := u, summarizer_choice := "gemini" } ::
        (handleReply reply ++ [Action.setBadge ""])

/-- The URL guard of the listener: accepted exactly when a tab URL is
present, truthy, and starts with `http:` or `https:`. -/
def urlAccepted (tabUrl : Option String) : Bool :=
  match tabUrl with
  | none => false
  | some u => !(u == "" || (!(jsStartsWith u "http:") && !(jsStartsWith u "https:")))

end Background

/-! ## Popup (`extension/popup.js`, second variant with source selector) -/

namespace Popup

/-- Request body assembled by the `summarizeButton` click listener: starts
as `{ summarizer_choice: "gemini" }` and receives exactly one of `url`
(current-tab branch) or `rss_url` (feed branch). -/
structure RequestBody where
  url : Option String
  rss_url : Option String
  summarizer_choice : String
deriving DecidableEq, Repr

/-- Observable effects of the click listener. -/
inductive Action where
  | status (msg : String)
  | fetchRequest (body : RequestBody)
deriving DecidableEq, Repr

/-- Bodies of the fetch requests contained in an action trace. -/
def requestsOf (acts : List Action) : List RequestBody :=
  acts.filterMap fun a =>
    match a with
    | Action.fetchRequest b => some b
    | _ => none

/-- Embedding of the `summarizeButton` click listener: for the
`current_tab` source the tab URL must be present, truthy and start with
`http:`/`https:`, else the thrown `Invalid URL for current tab.` error is
shown and no fetch happens; any other selected value is sent as `rss_url`.
The single fetch of `fetchSummaryAndPlay` is the emitted request. -/
def summarizeClick (selectedValue : String) (tabUrl : Option String) :
    List Action :=
  if selectedValue == "current_tab" then
    match tabUrl with
    | none => [Action.status "Error: Invalid URL for current tab."]
    | some u =>
      if u == "" || (!(jsStartsWith u "http:") && !(jsStartsWith u "https:")) then
        [Action.status "Error: Invalid URL for current tab."]
      else
        [Action.fetchRequest { url := some u, rss_url := none, summarizer_choice := "gemini" }]
  else
    [Action.fetchRequest { url := none, rss_url := some selectedValue, summarizer_choice := "gemini" }]

/-- Whether the click listener reaches `fetchSummaryAndPlay` with a body:
always for a feed source, only for a valid tab URL for `current_tab`. -/
def requestIssued (selectedValue : String) (tabUrl : Option String) : Bool :=
  if selectedValue == "current_tab" then
    match tabUrl with
    | none => false
    | some u => !(u == "" || (!(jsStartsWith u "http:") && !(jsStartsWith u "https:")))
  else true

/-- Popup document state touched by `fetchSummaryAndPlay`, `resetUI` and
`updateStatus`. -/
structure UIState where
  statusMsg : String
  summaryText : String
  summaryVisible : Bool
  replayDisabled : Bool
  audioSet : Bool
  summarizeDisabled : Bool
deriving DecidableEq, Repr

/-- Server response fields the popup inspects after `response.json()`. -/
structure ServerData where
  error : Option String
  summary_text : Option String
  audio_base64 : Option String
deriving DecidableEq, Repr

/-- Outcome of the single `fetch` to the summarization server. -/
inductive Reply where
  | httpError (status : Nat) (errMsg : Option String)
  | ok (data : ServerData)
deriving DecidableEq, Repr

/-- Outcome of the browser builtin `audioContext.decodeAudioData` on the decoded
bytes (an external collaborator: the audio format is the contract of the TTS
service). -/
inductive DecodeOutcome where
  | success
  | failure
deriving DecidableEq, Repr

/-- Embedding of `resetUI`: status prompt, summary cleared and hidden,
replay disabled, stored audio buffer dropped. -/
def resetUI (st : UIState) : UIState :=
  { st with
    statusMsg := "Select source and click Summarize."
    summaryText := ""
    summaryVisible := false
    replayDisabled := true
    audioSet := false }

/-- The `catch`-plus-`finally` path of `fetchSummaryAndPlay`: status set to
the error, `resetUI`, the error status shown again, summarize button
re-enabled. -/
def failState (msg : String) (st : UIState) : UIState :=
  { resetUI st with
    statusMsg := "Error: " ++ msg
    summarizeDisabled := false }

/-- Embedding of `fetchSummaryAndPlay`: disables the summarize button, issues
the fetch, validates the reply (`data.error`, then missing/empty
`summary_text` or `audio_base64`), displays the summary, decodes the audio
(base64 plus `decodeAudioData`), and on success enables replay and plays;
every thrown error lands in `failState`. -/
def fetchSummaryAndPlay (r : Reply) (dec : DecodeOutcome) (st0 : UIState) :
    UIState :=
  let st := { st0 with
    statusMsg := "Requesting summary from server..."
    summarizeDisabled := true }
  match r with
  | Reply.httpError status errMsg =>
      failState (errMsg.getD ("Server error (" ++ toString status ++ ")")) st
  | Reply.ok data =>
    if jsTruthy data.error then failState (data.error.getD "") st
    else if !(jsTruthy data.summary_text) || !(jsTruthy data.audio_base64) then
      failState "Server response missing summary or audio data." st
    else
      let s := data.summary_text.getD ""
      let a := data.audio_base64.getD ""
      let st := { st with
        summaryText := s
        summaryVisible := true
        statusMsg := "Decoding audio..." }
      match base64ToArrayBuffer a, dec with
      | some _, DecodeOutcome.success =>
          { st with
            audioSet := true
            replayDisabled := false
            statusMsg := "Playing summary..."
            summarizeDisabled := false }
      | _, _ => failState "Could not decode audio." st

/-- The condition under which `fetchSummaryAndPlay` reaches its success
path: HTTP ok, no `data.error`, truthy `summary_text` and `audio_base64`,
valid base64 and successful audio decode. -/
def successCond (r : Reply) (dec : DecodeOutcome) : Bool :=
  match r with
  | Reply.httpError _ _ => false
  | Reply.ok data =>
      !(jsTruthy data.error) && jsTruthy data.summary_text &&
      jsTruthy data.audio_base64 &&
      (base64ToArrayBuffer (data.audio_base64.getD "")).isSome &&
      (dec == DecodeOutcome.success)

end Popup

/-! ## Options page (`extension/options.js`) -/

namespace OptionsPage

/-- Whitespace characters stripped by JavaScript `String.prototype.trim`
(ASCII subset; the round-trip theorem is independent of the exact set). -/
def isJsWs (c : Char) : Bool :=
  c == ' ' || c == '\t' || c == '\n' || c == '\r' || c == '\x0b' || c == '\x0c'

/-- Model of `feed.trim()`: leading and trailing whitespace removed. -/
def trimChars (l : List Char) : List Char :=
  (l.dropWhile isJsWs).rdropWhile isJsWs

/-- Model of `feedsText.split('\n')` on the character list. -/
def splitNl : List Char → List (List Char)
  | [] => [[]]
  | c :: cs =>
    if c = '\n' then [] :: splitNl cs
    else
      match splitNl cs with
      | [] => [[c]]
      | g :: gs => (c :: g) :: gs

/-- Model of `array.join('\n')` on character lists. -/
def joinNl : List (List Char) → List Char
  | [] => []
  | [e] => e
  | e :: es => e ++ '\n' :: joinNl es

/-- Embedding of `saveOptions` (`extension/options.js`): the textarea text is
split on newlines, each entry trimmed, empty entries removed
(`feed.length > 0`), and the resulting array stored. -/
def saveFeeds (text : List Char) : List (List Char) :=
  ((splitNl text).map trimChars).filter (fun e => !e.isEmpty)

/-- Embedding of `restoreOptions` (`extension/options.js`): the stored array
is rendered into the textarea joined by newlines. -/
def restoreFeeds (feeds : List (List Char)) : List Char :=
  joinNl feeds

/-- `saveOptions` on Lean strings. -/
def saveOptions (feedsText : String) : List String :=
  (saveFeeds feedsText.data).map (fun l => String.mk l)

/-- `restoreOptions` on Lean strings. -/
def restoreOptions (feeds : List String) : String :=
  String.mk (restoreFeeds (feeds.map String.data))

theorem splitNl_ne_nil : ∀ l : List Char, splitNl l ≠ []
  | [] => by simp [splitNl]
  | c :: cs => by
      rw [splitNl]
      by_cases hc : c = '\n'
      · simp [hc]
      · rw [if_neg hc]
        cases h : splitNl cs <;> simp

theorem not_mem_nl_splitNl : ∀ l : List Char, ∀ g ∈ splitNl l, '\n' ∉ g
  | [], g, hg => by
      simp [splitNl] at hg
      simp [hg]
  | c :: cs, g, hg => by
      rw [splitNl] at hg
      by_cases hc : c = '\n'
      · rw [if_pos hc] at hg
        rcases List.mem_cons.mp hg with h | h
        · simp [h]
        · exact not_mem_nl_splitNl cs g h
      · rw [if_neg hc] at hg
        cases hsp : splitNl cs with
        | nil => exact absurd hsp (splitNl_ne_nil cs)
        | cons g0 gs =>
          rw [hsp] at hg
          rcases List.mem_cons.mp hg with h | h
          · subst h
            intro hmem
            rcases List.mem_cons.mp hmem with h | h
            · exact hc h.symm
            · exact not_mem_nl_splitNl cs g0 (by simp [hsp]) h
          · exact not_mem_nl_splitNl cs g (by simp [hsp, h])

theorem splitNl_of_not_mem : ∀ e : List Char, '\n' ∉ e → splitNl e = [e]
  | [], _ => rfl
  | c :: cs, h => by
      have hc : ¬ c = '\n' := fun hcc => h (by simp [hcc])
      have ih := splitNl_of_not_mem cs (fun hm => h (by simp [hm]))
      rw [splitNl, if_neg hc, ih]

theorem splitNl_append_nl (e : List Char) (he : '\n' ∉ e) :
    ∀ r : List Char, splitNl (e ++ '\n' :: r) = e :: splitNl r := by
  induction e with
  | nil =>
    intro r
    simp [splitNl]
  | cons c cs ih =>
    intro r
    have hc : ¬ c = '\n' := fun hcc => he (by simp [hcc])
    have ihcs := ih (fun hm => he (by simp [hm])) r
    rw [List.cons_append, splitNl, if_neg hc, ihcs]

theorem splitNl_joinNl :
    ∀ es : List (List Char), es ≠ [] → (∀ e ∈ es, '\n' ∉ e) →
      splitNl (joinNl es) = es
  | [], h, _ => absurd rfl h
  | [e], _, he => by
      rw [joinNl]
      exact splitNl_of_not_mem e (he e (by simp))
  | e :: e1 :: es, _, he => by
      have ih := splitNl_joinNl (e1 :: es) (by simp)
        (fun x hx => he x (by simp [List.mem_cons.mp hx]))
      rw [show joinNl (e :: e1 :: es) = e ++ '\n' :: joinNl (e1 :: es) from rfl,
        splitNl_append_nl e (he e (by simp)), ih]

theorem dropWhile_head_false {p : Char → Bool} {l : List Char}
    (h : l.dropWhile p = l) :
    (l.rdropWhile p).dropWhile p = l.rdropWhile p := by
  cases l with
  | nil => simp
  | cons c cs =>
    have hpc : p c = false := by
      by_contra hpc
      have hpc' : p c = true := by
        cases hp : p c
        · exact absurd hp hpc
        · rfl
      have hlen := congrArg List.length h
      rw [List.dropWhile_cons, hpc'] at hlen
      have hle : (cs.dropWhile p).length ≤ cs.length :=
        (List.dropWhile_sublist p).length_le
      simp at hlen
      omega
    obtain ⟨t, ht⟩ := List.rdropWhile_prefix p (c :: cs)
    cases hrd : List.rdropWhile p (c :: cs) with
    | nil => simp
    | cons r0 rs =>
      rw [hrd] at ht
      have hr0 : r0 = c := by
        have := congrArg (List.head?) ht
        simpa using this
      rw [List.dropWhile_cons, hr0, hpc]
      simp

theorem trimChars_idem (l : List Char) : trimChars (trimChars l) = trimChars l := by
  unfold trimChars
  have h1 : List.dropWhile isJsWs (List.dropWhile isJsWs l) =
      List.dropWhile isJsWs l :=
    List.dropWhile_idempotent _ _
  rw [dropWhile_head_false h1, List.rdropWhile_idempotent]

theorem mem_of_mem_trimChars {a : Char} {l : List Char} (h : a ∈ trimChars l) :
    a ∈ l := by
  unfold trimChars at h
  have h1 : a ∈ l.dropWhile isJsWs :=
    ((List.rdropWhile_prefix isJsWs (l.dropWhile isJsWs)).sublist).mem h
  exact ((List.dropWhile_suffix isJsWs).sublist).mem h1

theorem saveFeeds_props (td : List Char) :
    ∀ e ∈ saveFeeds td, trimChars e = e ∧ e ≠ [] ∧ '\n' ∉ e := by
  intro e he
  rw [saveFeeds, List.mem_filter] at he
  obtain ⟨hmem, hne⟩ := he
  rw [List.mem_map] at hmem
  obtain ⟨x, hx, hex⟩ := hmem
  refine ⟨by rw [← hex, trimChars_idem], ?_, ?_⟩
  · intro hnil
    rw [hnil] at hne
    simp at hne
  · intro hnl
    rw [← hex] at hnl
    exact not_mem_nl_splitNl td x hx (mem_of_mem_trimChars hnl)

theorem saveFeeds_joinNl (td : List Char) :
    saveFeeds (joinNl (saveFeeds td)) = saveFeeds td := by
  have hprops := saveFeeds_props td
  cases hes : saveFeeds td with
  | nil =>
    show saveFeeds (joinNl []) = []
    rfl
  | cons e es =>
    rw [← hes]
    have hsplit : splitNl (joinNl (saveFeeds td)) = saveFeeds td := by
      rw [hes]
      exact splitNl_joinNl (e :: es) (by simp)
        (fun x hx => (hprops x (hes ▸ hx)).2.2)
    rw [saveFeeds, hsplit]
    have hmap : (saveFeeds td).map trimChars = saveFeeds td := by
      have : ∀ es' : List (List Char), (∀ x ∈ es', trimChars x = x) →
          es'.map trimChars = es' := by
        intro es' h
        induction es' with
        | nil => rfl
        | cons x xs ih =>
          simp only [List.map_cons, List.cons.injEq]
          exact ⟨h x (by simp), ih (fun y hy => h y (by simp [hy]))⟩
      exact this _ (fun x hx => (hprops x hx).1)
    rw [hmap]
    apply List.filter_eq_self.mpr
    intro x hx
    have hne := (hprops x hx).2.1
    cases x with
    | nil => exact absurd rfl hne
    | cons _ _ => rfl

theorem options_roundtrip_core (td : List Char) :
    saveFeeds (restoreFeeds (saveFeeds td)) = saveFeeds td :=
  saveFeeds_joinNl td

end OptionsPage

/-! ## Shared helpers for the claim theorems -/

theorem except_bind_ok {ε α β : Type} (a : α) (f : α → Except ε β) :
    (Except.ok a >>= f : Except ε β) = f a := rfl

theorem except_bind_error {ε α β : Type} (e : ε) (f : α → Except ε β) :
    (Except.error e >>= f : Except ε β) = Except.error e := rfl

/-- Initial popup document state, as rendered by `popup.html` before any
interaction. -/
def initUIState : Popup.UIState where
  statusMsg := ""
  summaryText := ""
  summaryVisible := false
  replayDisabled := true
  audioSet := false
  summarizeDisabled := false

/-- A demonstration collaborator set in which every pipeline stage
succeeds. -/
def demoCollabOk : Pipeline.Collaborators where
  extract := fun _ => Except.ok "Extracted article text."
  buildPrompt := fun txt =>
    Pipeline.buildPromptPayload "Be concise." "Summarize: {text}" txt
  summarize := fun _ => Except.ok "A short summary."
  synthesize := fun _ => Except.ok [82, 73, 70, 70]

/-- A demonstration collaborator set whose synthesis service is
unreachable (spec Scenario E). -/
def demoCollabSynthFail : Pipeline.Collaborators where
  extract := fun _ => Except.ok "Extracted article text."
  buildPrompt := fun txt =>
    Pipeline.buildPromptPayload "Be concise." "Summarize: {text}" txt
  summarize := fun _ => Except.ok "A short summary."
  synthesize := fun _ => Except.error Pipeline.ErrKind.synthesisFailure

/-- Substring test: `containsSub t m` is true when `m` occurs inside `t`
(used to state the presence of the prompt placeholder independently of the
replacement function). -/
def containsSub : List Char → List Char → Bool
  | t, m =>
    match t with
    | [] => m.isEmpty
    | _ :: cs => startsWithChars t m || containsSub cs m

theorem containsSub_iff (m : List Char) :
    ∀ t, containsSub t m = true ↔ ∃ pre suf, t = pre ++ m ++ suf := by
  intro t
  induction t with
  | nil =>
    cases m with
    | nil =>
      simp only [containsSub, List.isEmpty_nil, true_iff]
      exact ⟨[], [], rfl⟩
    | cons x xs =>
      simp only [containsSub, List.isEmpty_cons]
      constructor
      · intro h; exact absurd h (by simp)
      · rintro ⟨pre, suf, h⟩
        exfalso
        have hlen := congrArg List.length h
        simp only [List.length_nil, List.length_append, List.length_cons] at hlen
        omega
  | cons c cs ih =>
    rw [show containsSub (c :: cs) m =
      (startsWithChars (c :: cs) m || containsSub cs m) from rfl]
    simp only [Bool.or_eq_true, startsWithChars_iff, ih]
    constructor
    · rintro (⟨suf, hsuf⟩ | ⟨pre, suf, h⟩)
      · exact ⟨[], suf, by simpa using hsuf⟩
      · exact ⟨c :: pre, suf, by simp [h]⟩
    · rintro ⟨pre, suf, h⟩
      cases pre with
      | nil => exact Or.inl ⟨suf, by simpa using h⟩
      | cons p ps =>
        simp only [List.cons_append, List.cons.injEq] at h
        exact Or.inr ⟨ps, suf, h.2⟩

theorem base64Encode_ne_empty (bs : List Nat) (h : bs ≠ []) :
    base64Encode bs ≠ "" := by
  cases bs with
  | nil => exact absurd rfl h
  | cons b rest =>
    intro he
    have hd : (base64Encode (b :: rest)).data = ([] : List Char) := by
      rw [he]
    rw [show (base64Encode (b :: rest)).data = encodeChars (b :: rest) from rfl]
      at hd
    have hne : encodeChars (b :: rest) ≠ [] := by
      cases rest with
      | nil => simp [encodeChars]
      | cons b1 r1 => cases r1 <;> simp [encodeChars]
    exact hne hd

theorem requestsOf_handleReply (r : Background.Reply) :
    Background.requestsOf (Background.handleReply r) = [] := by
  cases r with
  | httpError st e => rfl
  | ok data =>
    rw [Background.handleReply]
    by_cases h1 : jsTruthy data.error = true
    · simp [h1, Background.requestsOf]
    · have h1' : jsTruthy data.error = false := by
        cases h : jsTruthy data.error
        · rfl
        · exact absurd h h1
      simp only [h1', Bool.false_eq_true, if_false]
      cases data.audio_base64 with
      | none => rfl
      | some a =>
        by_cases ha : (a == "") = true
        · simp [ha, Background.requestsOf]
        · have ha' : (a == "") = false := by
            cases h : a == ""
            · rfl
            · exact absurd h ha
          simp only [ha', Bool.not_false, if_true]
          cases base64ToArrayBuffer a <;> rfl

/-! ## Claim theorems -/

/-- Claim C1: for every URL whose scheme is not http or https, the request
is rejected with an invalid-input error notification before any network
call is made — by the background listener, by the popup current-tab source,
and by the spec-modelled pipeline guard — and the fetch to the
summarization server is only issued for URLs starting with `http:` or
`https:`. -/
theorem nonHttpUrl_rejected_before_fetch (u : String) (reply : Background.Reply) :
    ((jsStartsWith u "http:" || jsStartsWith u "https:") = false →
      Background.onClicked (some u) reply = [Background.Action.notify "無法摘要"] ∧
      Popup.summarizeClick "current_tab" (some u) =
        [Popup.Action.status "Error: Invalid URL for current tab."] ∧
      ∀ c : Pipeline.Collaborators,
        Pipeline.runPipeline c u = Except.error Pipeline.ErrKind.invalidInput ∧
        Pipeline.stagesAttempted c u = []) ∧
    (∀ b ∈ Background.requestsOf (Background.onClicked (some u) reply),
      (jsStartsWith b.url "http:" || jsStartsWith b.url "https:") = true) ∧
    (∀ b ∈ Popup.requestsOf (Popup.summarizeClick "current_tab" (some u)),
      (jsStartsWith (b.url.getD "") "http:" ||
        jsStartsWith (b.url.getD "") "https:") = true) := by
  cases hv : jsStartsWith u "http:" || jsStartsWith u "https:" with
  | false =>
    have hnot : (!(jsStartsWith u "http:") && !(jsStartsWith u "https:")) = true := by
      rw [← Bool.not_or, hv]
      rfl
    have hcond :
        (u == "" || (!(jsStartsWith u "http:") && !(jsStartsWith u "https:"))) = true := by
      rw [hnot, Bool.or_true]
    refine ⟨fun _ => ⟨?_, ?_, fun c => ⟨?_, ?_⟩⟩, ?_, ?_⟩
    · simp [Background.onClicked, hcond]
    · simp [Popup.summarizeClick, hcond]
    · simp [Pipeline.runPipeline, hnot]
    · simp [Pipeline.stagesAttempted, hnot]
    · intro b hb
      simp [Background.onClicked, hcond, Background.requestsOf] at hb
    · intro b hb
      simp [Popup.summarizeClick, hcond, Popup.requestsOf] at hb
  | true =>
    have hne : (u == "") = false := by
      cases hbe : u == ""
      · rfl
      · have hu : u = "" := by simpa using hbe
        subst hu
        exact absurd hv (by decide)
    have hcond :
        (u == "" || (!(jsStartsWith u "http:") && !(jsStartsWith u "https:"))) = false := by
      rw [hne, ← Bool.not_or, hv]
      rfl
    refine ⟨fun hfalse => absurd hfalse (by simp), ?_, ?_⟩
    · intro b hb
      have hh := requestsOf_handleReply reply
      simp only [Background.requestsOf] at hh
      simp only [Background.onClicked, hcond, Bool.false_eq_true, if_false,
        Background.requestsOf, List.filterMap_cons, List.filterMap_append, hh] at hb
      simp at hb
      rw [hb]
      exact hv
    · intro b hb
      simp only [Popup.summarizeClick, beq_self_eq_true, if_true, hcond,
        Bool.false_eq_true, if_false, Popup.requestsOf, List.filterMap_cons] at hb
      simp at hb
      rw [hb]
      simpa using hv

/-- Witness for C1 at the concrete non-http URL `ftp://example.com/file`
(spec Scenario B). -/
theorem nonHttpUrl_rejected_before_fetch_witness :
    Background.onClicked (some "ftp://example.com/file")
        (Background.Reply.ok { error := none, audio_base64 := none }) =
      [Background.Action.notify "無法摘要"] ∧
    Popup.summarizeClick "current_tab" (some "ftp://example.com/file") =
      [Popup.Action.status "Error: Invalid URL for current tab."] ∧
    Pipeline.runPipeline demoCollabOk "ftp://example.com/file" =
      Except.error Pipeline.ErrKind.invalidInput := by
  have h := nonHttpUrl_rejected_before_fetch "ftp://example.com/file"
    (Background.Reply.ok { error := none, audio_base64 := none })
  obtain ⟨hb, hp, hr⟩ := h.1 (by decide)
  exact ⟨hb, hp, (hr demoCollabOk).1⟩

/-- Claim C2: for every byte sequence, encoding it with the transport
base64 encoder and decoding it back with the consumer-side decoder
(`base64ToArrayBuffer` / the `atob`-and-`charCodeAt` loop) yields a
byte-identical sequence of the same length. -/
theorem base64_transport_roundtrip (bytes : List Nat)
    (h : ∀ b ∈ bytes, b < 256) :
    base64ToArrayBuffer (base64Encode bytes) = some bytes ∧
    ∃ out, base64ToArrayBuffer (base64Encode bytes) = some out ∧
      out.length = bytes.length := by
  have key := atobBytes_encodeChars bytes h
  have hatob : atob (base64Encode bytes) =
      some (String.mk (bytes.map Char.ofNat)) := by
    unfold atob base64Encode
    rw [show (String.mk (encodeChars bytes)).data = encodeChars bytes from rfl, key]
    rfl
  have hdec : base64ToArrayBuffer (base64Encode bytes) = some bytes := by
    unfold base64ToArrayBuffer
    rw [hatob]
    show some (((String.mk (bytes.map Char.ofNat)).data).map Char.toNat) = some bytes
    rw [show (String.mk (bytes.map Char.ofNat)).data = bytes.map Char.ofNat from rfl,
      map_toNat_ofNat bytes h]
  exact ⟨hdec, bytes, hdec, rfl⟩

/-- Witness for C2 at a concrete byte sequence (RIFF header bytes plus the
extremes 0 and 255). -/
theorem base64_transport_roundtrip_witness :
    base64ToArrayBuffer (base64Encode [82, 73, 70, 70, 0, 255]) =
      some [82, 73, 70, 70, 0, 255] :=
  (base64_transport_roundtrip [82, 73, 70, 70, 0, 255] (by decide)).1

/-- Claim C3: when any stage fails the caller receives exactly one error
result and no partial summary or audio — a synthesis failure occurring
after the summary was produced yields the bare synthesis error, with no
summary_text in the failure payload — and the popup handler clears the
displayed summary and disables replay on every failure. -/
theorem failure_yields_single_error (r : Popup.Reply)
    (dec : Popup.DecodeOutcome) (st0 : Popup.UIState) :
    (Popup.successCond r dec = false →
      (Popup.fetchSummaryAndPlay r dec st0).summaryText = "" ∧
      (Popup.fetchSummaryAndPlay r dec st0).replayDisabled = true ∧
      (Popup.fetchSummaryAndPlay r dec st0).audioSet = false ∧
      (Popup.fetchSummaryAndPlay r dec st0).summaryVisible = false) ∧
    (∀ (c : Pipeline.Collaborators) (url txt : String)
        (p : Pipeline.PromptPayload) (s : String) (e : Pipeline.ErrKind),
      (jsStartsWith url "http:" || jsStartsWith url "https:") = true →
      c.extract url = Except.ok txt →
      c.buildPrompt txt = Except.ok p →
      c.summarize p = Except.ok s →
      c.synthesize s = Except.error e →
      Pipeline.runPipeline c url = Except.error e) := by
  constructor
  · intro hfail
    cases r with
    | httpError st e =>
      simp [Popup.fetchSummaryAndPlay, Popup.failState, Popup.resetUI]
    | ok data =>
      rw [Popup.successCond] at hfail
      by_cases h1 : jsTruthy data.error = true
      · simp [Popup.fetchSummaryAndPlay, h1, Popup.failState, Popup.resetUI]
      · have h1' : jsTruthy data.error = false := by
          cases h : jsTruthy data.error
          · rfl
          · exact absurd h h1
        cases hx : jsTruthy data.summary_text with
        | false =>
          simp [Popup.fetchSummaryAndPlay, h1', hx, Popup.failState, Popup.resetUI]
        | true =>
          cases hy : jsTruthy data.audio_base64 with
          | false =>
            simp [Popup.fetchSummaryAndPlay, h1', hx, hy, Popup.failState,
              Popup.resetUI]
          | true =>
            cases hdec : base64ToArrayBuffer (data.audio_base64.getD "") with
            | none =>
              cases dec <;>
                simp [Popup.fetchSummaryAndPlay, h1', hx, hy, hdec,
                  Popup.failState, Popup.resetUI]
            | some bytes =>
              cases dec with
              | success => simp [h1', hx, hy, hdec] at hfail
              | failure =>
                simp [Popup.fetchSummaryAndPlay, h1', hx, hy, hdec,
                  Popup.failState, Popup.resetUI]
  · intro c url txt p s e hurl hext hbp hsum hsyn
    have hnot : (!(jsStartsWith url "http:") && !(jsStartsWith url "https:")) = false := by
      rw [← Bool.not_or, hurl]
      rfl
    rw [Pipeline.runPipeline]
    simp only [hnot, Bool.false_eq_true, if_false, hext, except_bind_ok, hbp,
      hsum, hsyn, Except.map_error, except_bind_error]

/-- Witness for C3: a concrete HTTP failure reply clears the popup state,
and the demonstration pipeline with an unreachable synthesis service
returns the bare synthesis error (spec Scenario E). -/
theorem failure_yields_single_error_witness :
    (Popup.fetchSummaryAndPlay (Popup.Reply.httpError 500 none)
        Popup.DecodeOutcome.success initUIState).summaryText = "" ∧
    (Popup.fetchSummaryAndPlay (Popup.Reply.httpError 500 none)
        Popup.DecodeOutcome.success initUIState).replayDisabled = true ∧
    (Popup.fetchSummaryAndPlay (Popup.Reply.httpError 500 none)
        Popup.DecodeOutcome.success initUIState).audioSet = false ∧
    Pipeline.runPipeline demoCollabSynthFail "https://example.com/article" =
      Except.error Pipeline.ErrKind.synthesisFailure := by
  have h := failure_yields_single_error (Popup.Reply.httpError 500 none)
    Popup.DecodeOutcome.success initUIState
  obtain ⟨ha, hb, hc, _⟩ := h.1 rfl
  refine ⟨ha, hb, hc, ?_⟩
  exact h.2 demoCollabSynthFail "https://example.com/article"
    "Extracted article text."
    { system_prompt := "Be concise."
      user_prompt := "Summarize: Extracted article text." }
    "A short summary." Pipeline.ErrKind.synthesisFailure
    (by decide) rfl rfl rfl rfl

/-- Claim C4: every request body the popup click listener hands to the
fetch contains exactly one of the two source forms — a page `url` or an
RSS `rss_url` — never both and never neither, together with a non-empty
provider-identifier string. -/
theorem requestBody_exactly_one_source (sv : String) (tab : Option String)
    (b : Popup.RequestBody)
    (hb : b ∈ Popup.requestsOf (Popup.summarizeClick sv tab)) :
    (b.url.isSome = true ∧ b.rss_url = none ∨
      b.url = none ∧ b.rss_url.isSome = true) ∧
    b.summarizer_choice ≠ "" := by
  rw [Popup.summarizeClick.eq_def] at hb
  by_cases hsv : (sv == "current_tab") = true
  · rw [if_pos hsv] at hb
    cases tab with
    | none => simp [Popup.requestsOf] at hb
    | some u =>
      by_cases hc :
          (u == "" || (!(jsStartsWith u "http:") && !(jsStartsWith u "https:"))) = true
      · simp [Popup.requestsOf, hc] at hb
      · have hc' :
            (u == "" || (!(jsStartsWith u "http:") && !(jsStartsWith u "https:"))) = false := by
          cases h : u == "" || (!(jsStartsWith u "http:") && !(jsStartsWith u "https:"))
          · rfl
          · exact absurd h hc
        simp [Popup.requestsOf, hc'] at hb
        subst hb
        exact ⟨Or.inl ⟨rfl, rfl⟩, show ("gemini" : String) ≠ "" by decide⟩
  · rw [if_neg hsv] at hb
    simp [Popup.requestsOf] at hb
    subst hb
    exact ⟨Or.inr ⟨rfl, rfl⟩, show ("gemini" : String) ≠ "" by decide⟩

/-- Witness for C4 at a concrete RSS-feed request body. -/
theorem requestBody_exactly_one_source_witness :
    ((Popup.RequestBody.mk none (some "https://feed.example.com/rss")
          "gemini").url.isSome = true ∧
      (Popup.RequestBody.mk none (some "https://feed.example.com/rss")
          "gemini").rss_url = none ∨
      (Popup.RequestBody.mk none (some "https://feed.example.com/rss")
          "gemini").url = none ∧
      (Popup.RequestBody.mk none (some "https://feed.example.com/rss")
          "gemini").rss_url.isSome = true) ∧
    (Popup.RequestBody.mk none (some "https://feed.example.com/rss")
        "gemini").summarizer_choice ≠ "" :=
  requestBody_exactly_one_source "https://feed.example.com/rss" none _ (by decide)

/-- Claim C5: on full success the response carries a non-empty
summary_text and a non-empty audio_base64, and the popup treats a response
lacking either field as a failure rather than a success. -/
theorem success_has_summary_and_audio :
    (∀ (c : Pipeline.Collaborators) (url s a : String),
      Pipeline.runPipeline c url = Except.ok (s, a) →
      (∀ p t, c.summarize p = Except.ok t → t ≠ "") →
      (∀ t bs, c.synthesize t = Except.ok bs → bs ≠ []) →
      s ≠ "" ∧ a ≠ "") ∧
    (∀ (d : Popup.ServerData) (dec : Popup.DecodeOutcome) (st0 : Popup.UIState),
      jsTruthy d.error = false →
      (jsTruthy d.summary_text = false ∨ jsTruthy d.audio_base64 = false) →
      (Popup.fetchSummaryAndPlay (Popup.Reply.ok d) dec st0).statusMsg =
          "Error: Server response missing summary or audio data." ∧
      (Popup.fetchSummaryAndPlay (Popup.Reply.ok d) dec st0).audioSet = false ∧
      (Popup.fetchSummaryAndPlay (Popup.Reply.ok d) dec st0).replayDisabled = true) := by
  constructor
  · intro c url s a hrun hsumne hsynne
    rw [Pipeline.runPipeline] at hrun
    by_cases hurl : (!(jsStartsWith url "http:") && !(jsStartsWith url "https:")) = true
    · rw [if_pos hurl] at hrun
      exact absurd hrun (by simp)
    · rw [if_neg hurl] at hrun
      cases hext : c.extract url with
      | error e =>
        rw [hext, except_bind_error] at hrun
        exact absurd hrun (by simp)
      | ok txt =>
        rw [hext, except_bind_ok] at hrun
        cases hbp : c.buildPrompt txt with
        | error e =>
          rw [hbp, except_bind_error] at hrun
          exact absurd hrun (by simp)
        | ok p =>
          rw [hbp, except_bind_ok] at hrun
          cases hsum : c.summarize p with
          | error e =>
            rw [hsum, except_bind_error] at hrun
            exact absurd hrun (by simp)
          | ok s1 =>
            rw [hsum, except_bind_ok] at hrun
            cases hsyn : c.synthesize s1 with
            | error e =>
              rw [hsyn, except_bind_error] at hrun
              exact absurd hrun (by simp)
            | ok audio =>
              rw [hsyn, except_bind_ok] at hrun
              have hpair : Except.ok (ε := Pipeline.ErrKind)
                  (s1, base64Encode audio) = Except.ok (s, a) := hrun
              injection hpair with hpair'
              injection hpair' with hs ha
              constructor
              · rw [← hs]
                exact hsumne p s1 hsum
              · rw [← ha]
                exact base64Encode_ne_empty audio (hsynne s1 audio hsyn)
  · intro d dec st0 herr hmiss
    have hcond : (!(jsTruthy d.summary_text) || !(jsTruthy d.audio_base64)) = true := by
      rcases hmiss with h | h <;> simp [h]
    refine ⟨?_, ?_, ?_⟩ <;>
      simp [Popup.fetchSummaryAndPlay, herr, hcond, Popup.failState, Popup.resetUI]

/-- Witness for C5: the demonstration pipeline produces non-empty summary
and audio on the spec Scenario A URL, and the popup rejects a response
whose summary_text is absent. -/
theorem success_has_summary_and_audio_witness :
    (("A short summary." : String) ≠ "" ∧
      base64Encode [82, 73, 70, 70] ≠ "") ∧
    (Popup.fetchSummaryAndPlay
        (Popup.Reply.ok (Popup.ServerData.mk none none (some "TWFu")))
        Popup.DecodeOutcome.success initUIState).statusMsg =
      "Error: Server response missing summary or audio data." := by
  refine ⟨success_has_summary_and_audio.1 demoCollabOk "https://example.com/article"
      "A short summary." (base64Encode [82, 73, 70, 70]) rfl ?_ ?_, ?_⟩
  · intro p t h
    injection h with h'
    rw [← h']
    decide
  · intro t bs h
    injection h with h'
    rw [← h']
    decide
  · exact (success_has_summary_and_audio.2
      (Popup.ServerData.mk none none (some "TWFu"))
      Popup.DecodeOutcome.success initUIState rfl (Or.inl rfl)).1

/-- Claim C6: if the configured user-prompt template does not contain the
text-substitution placeholder, prompt construction fails deterministically
with a configuration error instead of silently omitting the source text;
when construction succeeds, the user prompt embeds the extracted text at
the placeholder position. -/
theorem prompt_placeholder_required (sys tmpl txt : String) :
    (containsSub tmpl.data Pipeline.MARKER.data = false →
      Pipeline.buildPromptPayload sys tmpl txt =
        Except.error Pipeline.ErrKind.configurationError) ∧
    (∀ payload, Pipeline.buildPromptPayload sys tmpl txt = Except.ok payload →
      ∃ pre suf, tmpl.data = pre ++ Pipeline.MARKER.data ++ suf ∧
        payload.user_prompt.data = pre ++ txt.data ++ suf ∧
        payload.system_prompt = sys) ∧
    (containsSub tmpl.data Pipeline.MARKER.data = true →
      ∃ payload,
        Pipeline.buildPromptPayload sys tmpl txt = Except.ok payload) := by
  have hm : Pipeline.MARKER.data ≠ [] := by decide
  refine ⟨?_, ?_, ?_⟩
  · intro hno
    have hnoex : ¬ ∃ pre suf, tmpl.data = pre ++ Pipeline.MARKER.data ++ suf := by
      intro hex
      exact absurd ((containsSub_iff Pipeline.MARKER.data tmpl.data).mpr hex)
        (by simp [hno])
    have hrm :=
      (replaceMarker_none Pipeline.MARKER.data txt.data hm tmpl.data).mpr hnoex
    simp only [Pipeline.buildPromptPayload, hrm]
  · intro payload hok
    simp only [Pipeline.buildPromptPayload] at hok
    cases hrm : Pipeline.replaceMarker Pipeline.MARKER.data txt.data tmpl.data with
    | none =>
      rw [hrm] at hok
      exact absurd hok (by simp)
    | some up =>
      rw [hrm] at hok
      obtain ⟨pre, suf, ht, hr⟩ := replaceMarker_some _ _ _ _ hrm
      injection hok with hok'
      refine ⟨pre, suf, ht, ?_, ?_⟩
      · rw [← hok']
        show (String.mk up).data = _
        rw [show (String.mk up).data = up from rfl, hr]
      · rw [← hok']
  · intro hyes
    obtain ⟨pre, suf, ht⟩ := (containsSub_iff Pipeline.MARKER.data tmpl.data).mp hyes
    cases hrm : Pipeline.replaceMarker Pipeline.MARKER.data txt.data tmpl.data with
    | none =>
      exact absurd ⟨pre, suf, ht⟩
        ((replaceMarker_none Pipeline.MARKER.data txt.data hm tmpl.data).mp hrm)
    | some up =>
      refine ⟨{ system_prompt := sys, user_prompt := String.mk up }, ?_⟩
      simp only [Pipeline.buildPromptPayload, hrm]

/-- Witness for C6: a concrete template without the placeholder is rejected
with the configuration error. -/
theorem prompt_placeholder_required_witness :
    Pipeline.buildPromptPayload "You are a summarizer." "Summarize the page."
        "BODY" = Except.error Pipeline.ErrKind.configurationError :=
  (prompt_placeholder_required "You are a summarizer." "Summarize the page."
    "BODY").1 (by decide)

/-- Claim C7: every stage is attempted at most once per request with no
retry: the popup click issues exactly one fetch when a request is issued
and none otherwise, the background listener issues at most one fetch and
the fetches it issues do not depend on the server reply (no retry loop),
and the modelled orchestrator attempts each pipeline stage at most once. -/
theorem at_most_one_attempt_per_stage :
    (∀ (sv : String) (tab : Option String),
      (Popup.requestsOf (Popup.summarizeClick sv tab)).length =
        (if Popup.requestIssued sv tab then 1 else 0)) ∧
    (∀ (u : Option String) (r r2 : Background.Reply),
      (Background.requestsOf (Background.onClicked u r)).length =
        (if Background.urlAccepted u then 1 else 0) ∧
      Background.requestsOf (Background.onClicked u r) =
        Background.requestsOf (Background.onClicked u r2)) ∧
    (∀ (c : Pipeline.Collaborators) (url : String) (st : Pipeline.Stage),
      (Pipeline.stagesAttempted c url).count st ≤ 1) := by
  refine ⟨?_, ?_, ?_⟩
  · intro sv tab
    rw [Popup.summarizeClick.eq_def, Popup.requestIssued.eq_def]
    by_cases hsv : (sv == "current_tab") = true
    · rw [if_pos hsv, if_pos hsv]
      cases tab with
      | none => simp [Popup.requestsOf]
      | some u =>
        by_cases hc :
            (u == "" || (!(jsStartsWith u "http:") && !(jsStartsWith u "https:"))) = true
        · simp [Popup.requestsOf, hc]
        · have hc' :
              (u == "" || (!(jsStartsWith u "http:") && !(jsStartsWith u "https:"))) = false := by
            cases h : u == "" || (!(jsStartsWith u "http:") && !(jsStartsWith u "https:"))
            · rfl
            · exact absurd h hc
          simp [Popup.requestsOf, hc']
    · rw [if_neg hsv, if_neg hsv]
      simp [Popup.requestsOf]
  · intro u r r2
    cases u with
    | none =>
      exact ⟨by simp [Background.onClicked, Background.urlAccepted,
        Background.requestsOf], rfl⟩
    | some v =>
      by_cases hc :
          (v == "" || (!(jsStartsWith v "http:") && !(jsStartsWith v "https:"))) = true
      · constructor
        · simp [Background.onClicked, Background.urlAccepted,
            Background.requestsOf, hc]
        · simp [Background.onClicked, hc]
      · have hc' :
            (v == "" || (!(jsStartsWith v "http:") && !(jsStartsWith v "https:"))) = false := by
          cases h : v == "" || (!(jsStartsWith v "http:") && !(jsStartsWith v "https:"))
          · rfl
          · exact absurd h hc
        have hh := requestsOf_handleReply r
        have hh2 := requestsOf_handleReply r2
        simp only [Background.requestsOf] at hh hh2
        constructor
        · simp [Background.onClicked, Background.urlAccepted,
            Background.requestsOf, hc', List.filterMap_cons,
            List.filterMap_append, hh]
        · simp [Background.onClicked, Background.requestsOf, hc',
            List.filterMap_cons, List.filterMap_append, hh, hh2]
  · intro c url st
    by_cases hurl : (!(jsStartsWith url "http:") && !(jsStartsWith url "https:")) = true
    · simp [Pipeline.stagesAttempted, hurl]
    · have hurl' :
          (!(jsStartsWith url "http:") && !(jsStartsWith url "https:")) = false := by
        cases h : !(jsStartsWith url "http:") && !(jsStartsWith url "https:")
        · rfl
        · exact absurd h hurl
      cases hext : c.extract url with
      | error e =>
        simp only [Pipeline.stagesAttempted, hurl', Bool.false_eq_true,
          if_false, hext]
        cases st <;> decide
      | ok txt =>
        cases hbp : c.buildPrompt txt with
        | error e =>
          simp only [Pipeline.stagesAttempted, hurl', Bool.false_eq_true,
            if_false, hext, hbp]
          cases st <;> decide
        | ok p =>
          cases hsum : c.summarize p with
          | error e =>
            simp only [Pipeline.stagesAttempted, hurl', Bool.false_eq_true,
              if_false, hext, hbp, hsum]
            cases st <;> decide
          | ok s =>
            simp only [Pipeline.stagesAttempted, hurl', Bool.false_eq_true,
              if_false, hext, hbp, hsum]
            cases st <;> decide

/-- Claim C8: `saveOptions` stores the textarea content split on newlines
with entries trimmed and empties removed, `restoreOptions` renders the
stored list joined by newlines, and saving the restored text stores an
identical list. -/
theorem options_save_restore_roundtrip (t : String) :
    OptionsPage.saveOptions (OptionsPage.restoreOptions (OptionsPage.saveOptions t)) =
      OptionsPage.saveOptions t := by
  unfold OptionsPage.saveOptions OptionsPage.restoreOptions
  rw [List.map_map]
  have hcomp : (String.data ∘ fun l => String.mk l) = id := funext fun _ => rfl
  rw [hcomp, List.map_id]
  rw [show ∀ l : List Char, (String.mk l).data = l from fun _ => rfl]
  rw [OptionsPage.options_roundtrip_core]

/-- Claim C9: `base64ToArrayBuffer` raises an error (after emitting the
user notification) exactly on input that is not valid base64 and never
returns a buffer there; on every valid base64 input it returns a buffer
whose byte length equals the length of the decoded binary string. -/
theorem base64ToArrayBuffer_valid_iff (s : String) :
    (isValidB64 s = false →
      base64ToArrayBuffer s = none ∧ base64Notifications s = ["播放錯誤"]) ∧
    (isValidB64 s = true →
      base64Notifications s = [] ∧
      ∃ bin, atob s = some bin ∧
        base64ToArrayBuffer s = some (bin.data.map Char.toNat) ∧
        (bin.data.map Char.toNat).length = bin.length) := by
  have hiso := atobBytes_isSome s.data
  constructor
  · intro hinv
    have hbool : (atobBytes s.data).isSome = false := by
      rw [hiso]
      exact hinv
    have hnone : atobBytes s.data = none := by
      cases h : atobBytes s.data
      · rfl
      · rw [h] at hbool
        simp at hbool
    have hatob : atob s = none := by
      unfold atob
      rw [hnone]
      rfl
    constructor
    · unfold base64ToArrayBuffer
      rw [hatob]
    · unfold base64Notifications
      rw [hatob]
  · intro hval
    have hsome : (atobBytes s.data).isSome = true := by
      rw [hiso]
      exact hval
    cases h : atobBytes s.data with
    | none =>
      rw [h] at hsome
      simp at hsome
    | some bs =>
      have hatob : atob s = some (String.mk (bs.map Char.ofNat)) := by
        unfold atob
        rw [h]
        rfl
      refine ⟨?_, String.mk (bs.map Char.ofNat), hatob, ?_, ?_⟩
      · unfold base64Notifications
        rw [hatob]
      · unfold base64ToArrayBuffer
        rw [hatob]
      · simp [String.length, List.length_map]

/-- Witness for C9: a concrete malformed base64 string is rejected with
the notification, and a concrete valid one produces no notification. -/
theorem base64ToArrayBuffer_valid_iff_witness :
    (base64ToArrayBuffer "TWFu!" = none ∧
      base64Notifications "TWFu!" = ["播放錯誤"]) ∧
    base64Notifications "TWFu" = [] := by
  exact ⟨(base64ToArrayBuffer_valid_iff "TWFu!").1 (by decide),
    ((base64ToArrayBuffer_valid_iff "TWFu").2 (by decide)).1⟩

/-- Claim C10: every request body the extension sends to the summarization
server carries the fixed provider identifier summarizer_choice = "gemini",
for both the popup (either selected source) and the background listener. -/
theorem summarizer_choice_always_gemini :
    (∀ (sv : String) (tab : Option String) (b : Popup.RequestBody),
      b ∈ Popup.requestsOf (Popup.summarizeClick sv tab) →
      b.summarizer_choice = "gemini") ∧
    (∀ (u : Option String) (r : Background.Reply) (b : Background.RequestBody),
      b ∈ Background.requestsOf (Background.onClicked u r) →
      b.summarizer_choice = "gemini") := by
  constructor
  · intro sv tab b hb
    rw [Popup.summarizeClick.eq_def] at hb
    by_cases hsv : (sv == "current_tab") = true
    · rw [if_pos hsv] at hb
      cases tab with
      | none => simp [Popup.requestsOf] at hb
      | some u =>
        by_cases hc :
            (u == "" || (!(jsStartsWith u "http:") && !(jsStartsWith u "https:"))) = true
        · simp [Popup.requestsOf, hc] at hb
        · have hc' :
              (u == "" || (!(jsStartsWith u "http:") && !(jsStartsWith u "https:"))) = false := by
            cases h : u == "" || (!(jsStartsWith u "http:") && !(jsStartsWith u "https:"))
            · rfl
            · exact absurd h hc
          simp [Popup.requestsOf, hc'] at hb
          rw [hb]
    · rw [if_neg hsv] at hb
      simp [Popup.requestsOf] at hb
      rw [hb]
  · intro u r b hb
    cases u with
    | none => simp [Background.onClicked, Background.requestsOf] at hb
    | some v =>
      by_cases hc :
          (v == "" || (!(jsStartsWith v "http:") && !(jsStartsWith v "https:"))) = true
      · simp [Background.onClicked, Background.requestsOf, hc] at hb
      · have hc' :
            (v == "" || (!(jsStartsWith v "http:") && !(jsStartsWith v "https:"))) = false := by
          cases h : v == "" || (!(jsStartsWith v "http:") && !(jsStartsWith v "https:"))
          · rfl
          · exact absurd h hc
        have hh := requestsOf_handleReply r
        simp only [Background.requestsOf] at hh
        simp [Background.onClicked, Background.requestsOf, hc',
          List.filterMap_cons, List.filterMap_append, hh] at hb
        rw [hb]

/-- Witness for C10 at concrete popup and background request bodies. -/
theorem summarizer_choice_always_gemini_witness :
    (Popup.RequestBody.mk none (some "https://news.example.com/rss")
        "gemini").summarizer_choice = "gemini" ∧
    (Background.RequestBody.mk "https://example.com/article"
        "gemini").summarizer_choice = "gemini" := by
  constructor
  · exact summarizer_choice_always_gemini.1 "https://news.example.com/rss"
      none _ (by decide)
  · exact summarizer_choice_always_gemini.2 (some "https://example.com/article")
      (Background.Reply.ok (Background.ServerData.mk none none)) _ (by decide)

end LlmTts
